import Mathlib

/-!
# Verification of the CANHardwareInterface hardware abstraction layer

A shallow embedding of the `isobus::CANHardwareInterface` class of
AgIsoStack-plus-plus (`can_hardware_interface.hpp`).  The repository ships
the class declaration; the bodies of the member functions live in a
translation unit that is not part of the sources, so the operations below
are modelled from the specification document, faithful to its words, with
the header supplying the names, the 8-bit channel types and the
`PERIODIC_UPDATE_INTERVAL = 4` constant.

The model is purely functional: threads become boolean "thread handle"
fields, the update cycle becomes a function from the registry state to a
new state plus the ordered trace of published events, and a driver's
`write_frame` result is an oracle parameter of the cycle.
-/

namespace Isobus

/-- One CAN bus frame: a channel index, an arbitration identifier, a data
length and up to 8 bytes of payload (`isobus::CANMessageFrame`).  The
channel index is a `std::uint8_t` in the source; we keep a `Nat` and reduce
it modulo 256 wherever the C++ type forces 8 bits. -/
structure CANMessageFrame where
  channel : Nat
  identifier : Nat
  dataLength : Nat
  data : List Nat
deriving DecidableEq, Repr

/-- A driver handle (`std::shared_ptr<CANHardwarePlugin>`): a possibly-null
pointer, abstracted to an identifier.  `none` models a null pointer. -/
abbrev DriverHandle : Type := Option Nat

/-- Modelled from the spec: the per-channel state `CANHardware` — the
assignment state (`Unassigned | Assigned(driver)`), the FIFO transmit
queue, the FIFO receive queue, and the receive-thread handle (a boolean
standing for presence of the thread).  Queues are `std::deque`s mutated
under locks in the source; the pure model keeps the lists only. -/
structure CANHardware where
  frameHandler : Option DriverHandle
  messagesToBeTransmitted : List CANMessageFrame
  receivedMessages : List CANMessageFrame
  receiveMessageThread : Bool
deriving DecidableEq, Repr

/-- A freshly allocated channel: empty queues, no driver, no thread. -/
def emptyChannel : CANHardware :=
  { frameHandler := none
    messagesToBeTransmitted := []
    receivedMessages := []
    receiveMessageThread := false }

/-- Modelled from the spec: the process-wide registry state of
`CANHardwareInterface` — the ordered channel table, the lifecycle flag
(`threadsStarted`: `Stopped | Running`), the periodic update interval in
milliseconds, and boolean handles for the main update thread and the
wakeup thread. -/
structure HwState where
  hardwareChannels : List CANHardware
  threadsStarted : Bool
  periodicUpdateInterval : Nat
  updateThread : Bool
  wakeupThread : Bool
deriving DecidableEq, Repr

/-- The default update interval for the CAN stack (from the header:
`static constexpr std::uint32_t PERIODIC_UPDATE_INTERVAL = 4`). -/
def PERIODIC_UPDATE_INTERVAL : Nat := 4

/-- The registry at process start: empty channel table, stopped, default
interval, no threads. -/
def initialState : HwState :=
  { hardwareChannels := []
    threadsStarted := false
    periodicUpdateInterval := PERIODIC_UPDATE_INTERVAL
    updateThread := false
    wakeupThread := false }

/-- `get_number_of_can_channels`: the number of configured channels. -/
def get_number_of_can_channels (s : HwState) : Nat :=
  s.hardwareChannels.length

/-- `is_running`: observation of the lifecycle flag. -/
def is_running (s : HwState) : Bool :=
  s.threadsStarted

/-- Modelled from the spec: `set_number_of_can_channels(n)` resizes the
channel table to `n` (a `std::uint8_t`, hence the reduction mod 256).
Fails with no mutation while running.  Shrinking destroys the dropped
channels; growing allocates fresh, empty, unassigned channels. -/
def set_number_of_can_channels (value : Nat) (s : HwState) : Bool × HwState :=
  let v := value % 256
  if s.threadsStarted then (false, s)
  else
    (true,
      { s with
        hardwareChannels :=
          s.hardwareChannels.take v ++
            List.replicate (v - s.hardwareChannels.length) emptyChannel })

/-- Modelled from the spec: `assign_can_channel_frame_handler(index, driver)`
binds a driver to a channel.  Fails with no mutation if the system is
running, the index (a `std::uint8_t`) is out of range, or the channel
already has a driver assigned. -/
def assign_can_channel_frame_handler (channelIndex : Nat)
    (canDriver : DriverHandle) (s : HwState) : Bool × HwState :=
  let idx := channelIndex % 256
  if s.threadsStarted then (false, s)
  else
    match s.hardwareChannels[idx]? with
    | none => (false, s)
    | some hw =>
      match hw.frameHandler with
      | some _ => (false, s)
      | none =>
        (true,
          { s with
            hardwareChannels :=
              s.hardwareChannels.set idx { hw with frameHandler := some canDriver } })

/-- Modelled from the spec: `unassign_can_channel_frame_handler(index)`
clears a channel's driver binding.  Fails with no mutation if the system
is running, the index is out of range, or nothing is assigned. -/
def unassign_can_channel_frame_handler (channelIndex : Nat) (s : HwState) :
    Bool × HwState :=
  let idx := channelIndex % 256
  if s.threadsStarted then (false, s)
  else
    match s.hardwareChannels[idx]? with
    | none => (false, s)
    | some hw =>
      match hw.frameHandler with
      | none => (false, s)
      | some _ =>
        (true,
          { s with
            hardwareChannels :=
              s.hardwareChannels.set idx { hw with frameHandler := none } })

/-- Modelled from the spec: `transmit_can_message(packet)` validates that
the packet's channel index (a `std::uint8_t`) is in range and has an
assigned driver; if so it appends the packet to that channel's transmit
queue and returns success, otherwise it fails and discards the frame. -/
def transmit_can_message (packet : CANMessageFrame) (s : HwState) :
    Bool × HwState :=
  let idx := packet.channel % 256
  match s.hardwareChannels[idx]? with
  | none => (false, s)
  | some hw =>
    match hw.frameHandler with
    | none => (false, s)
    | some _ =>
      (true,
        { s with
          hardwareChannels :=
            s.hardwareChannels.set idx
              { hw with
                messagesToBeTransmitted := hw.messagesToBeTransmitted ++ [packet] } })

/-- A channel is configured correctly unless a driver slot is assigned but
holds a null pointer (the spec's "assigned-but-null driver"). -/
def channel_configured_ok (hw : CANHardware) : Bool :=
  match hw.frameHandler with
  | some none => false
  | _ => true

/-- Modelled from the spec: `start()` fails with no side effect if already
running or if the channels are not configured correctly (an
assigned-but-null driver); on success it spawns one receive thread for
every channel with an assigned driver, spawns the main update thread and
the wakeup thread, and flips the lifecycle flag to Running. -/
def start (s : HwState) : Bool × HwState :=
  if s.threadsStarted then (false, s)
  else if ¬ s.hardwareChannels.all channel_configured_ok then (false, s)
  else
    (true,
      { s with
        threadsStarted := true
        updateThread := true
        wakeupThread := true
        hardwareChannels :=
          s.hardwareChannels.map fun hw =>
            { hw with receiveMessageThread := hw.frameHandler.isSome } })

/-- Modelled from the spec: `stop()` fails with no side effect if not
running; otherwise it joins every receive thread and both scheduler
threads, discards all queued frames in both directions on every channel,
and flips the lifecycle flag to Stopped. -/
def stop (s : HwState) : Bool × HwState :=
  if ¬ s.threadsStarted then (false, s)
  else
    (true,
      { s with
        threadsStarted := false
        updateThread := false
        wakeupThread := false
        hardwareChannels :=
          s.hardwareChannels.map fun hw =>
            { hw with
              receiveMessageThread := false
              messagesToBeTransmitted := []
              receivedMessages := [] } })

/-- `set_periodic_update_interval(value)`: stores the interval (a
`std::uint32_t`) between periodic updates, in milliseconds. -/
def set_periodic_update_interval (value : Nat) (s : HwState) : HwState :=
  { s with periodicUpdateInterval := value % 2 ^ 32 }

/-- `get_periodic_update_interval`: the interval between periodic updates. -/
def get_periodic_update_interval (s : HwState) : Nat :=
  s.periodicUpdateInterval

/-- Modelled from the spec: the wakeup thread (`periodic_update_function`)
sleeps for `periodicUpdateInterval` milliseconds between wake signals; the
model records the length of that sleep. -/
def periodic_update_function_sleep (s : HwState) : Nat :=
  s.periodicUpdateInterval

/-- An event published through one of the three event dispatchers of the
interface: `frameReceivedEventDispatcher`, `frameTransmittedEventDispatcher`
and `periodicUpdateEventDispatcher`. -/
inductive HwEvent where
  | frameReceived (frame : CANMessageFrame)
  | frameTransmitted (frame : CANMessageFrame)
  | periodicTick
deriving DecidableEq, Repr

/-- The frames carried by the `frameReceived` events of a trace, in order. -/
def receivedFrames (events : List HwEvent) : List CANMessageFrame :=
  events.filterMap fun e =>
    match e with
    | HwEvent.frameReceived f => some f
    | _ => none

/-- The frames carried by the `frameTransmitted` events of a trace, in order. -/
def transmittedFrames (events : List HwEvent) : List CANMessageFrame :=
  events.filterMap fun e =>
    match e with
    | HwEvent.frameTransmitted f => some f
    | _ => none

/-- The number of `periodicTick` events in a trace. -/
def tickCount (events : List HwEvent) : Nat :=
  (events.filter fun e => e = HwEvent.periodicTick).length

/-- Modelled from the spec: one cycle's attempt to drain a transmit queue
(`transmit_can_message_from_buffer` in a loop).  The frame at the front is
popped and handed to the driver's `write_frame` (the oracle `writeOk`); on
success the drain continues with the next queued frame; on failure the
drain stops for this cycle, leaving the failed frame and everything behind
it queued.  Returns the frames written in order and the remaining queue. -/
def transmit_drain (writeOk : CANMessageFrame → Bool) :
    List CANMessageFrame → List CANMessageFrame × List CANMessageFrame
  | [] => ([], [])
  | f :: rest =>
    if writeOk f then
      let result := transmit_drain writeOk rest
      (f :: result.1, result.2)
    else ([], f :: rest)

/-- Modelled from the spec: the per-channel work of one update cycle.
First the receive queue is drained entirely, publishing each frame through
the frame-received dispatcher in FIFO order; then the transmit queue is
drained best-effort through the assigned driver's `write_frame` (skipped
when no valid driver is assigned, since there is nothing to write with),
publishing each successfully written frame through the frame-transmitted
dispatcher.  Returns the updated channel and its ordered event block. -/
def process_channel (writeOk : CANMessageFrame → Bool) (hw : CANHardware) :
    CANHardware × List HwEvent :=
  let rxEvents := hw.receivedMessages.map HwEvent.frameReceived
  match hw.frameHandler with
  | some (some _) =>
    let drained := transmit_drain writeOk hw.messagesToBeTransmitted
    ({ hw with receivedMessages := [], messagesToBeTransmitted := drained.2 },
      rxEvents ++ drained.1.map HwEvent.frameTransmitted)
  | _ =>
    ({ hw with receivedMessages := [] }, rxEvents)

/-- Helper for the update cycle: processes the channels of the table in
index order, starting at index `idx`, threading the per-channel write
oracle and concatenating the event blocks in order. -/
def update_channels (writeOk : Nat → CANMessageFrame → Bool) (idx : Nat) :
    List CANHardware → List CANHardware × List HwEvent
  | [] => ([], [])
  | hw :: rest =>
    let hd := process_channel (writeOk idx) hw
    let tl := update_channels writeOk (idx + 1) rest
    (hd.1 :: tl.1, hd.2 ++ tl.2)

/-- Modelled from the spec: one cycle of the main update thread
(`update_thread_function`).  For each channel in index order it drains the
receive queue entirely and then attempts the transmit queue; after all
channels are processed it publishes exactly one periodic-tick event.  The
oracle `writeOk` gives each channel's driver `write_frame` outcome for the
frames of this cycle. -/
def update_thread_function (writeOk : Nat → CANMessageFrame → Bool)
    (s : HwState) : HwState × List HwEvent :=
  let result := update_channels writeOk 0 s.hardwareChannels
  ({ s with hardwareChannels := result.1 }, result.2 ++ [HwEvent.periodicTick])

/-- Modelled from the spec: the receive worker of a channel
(`receive_message_thread_function`) deposits the frames read from the
driver into the channel's receive queue, in the order read. -/
def receive_message_thread_function (channelIndex : Nat)
    (framesRead : List CANMessageFrame) (s : HwState) : HwState :=
  match s.hardwareChannels[channelIndex]? with
  | none => s
  | some hw =>
    { s with
      hardwareChannels :=
        s.hardwareChannels.set channelIndex
          { hw with receivedMessages := hw.receivedMessages ++ framesRead } }

/-- A run of several update cycles, one write oracle per cycle, with the
event traces concatenated in cycle order. -/
def run_cycles (oracles : List (Nat → CANMessageFrame → Bool)) (s : HwState) :
    HwState × List HwEvent :=
  match oracles with
  | [] => (s, [])
  | w :: ws =>
    let first := update_thread_function w s
    let rest := run_cycles ws first.1
    (rest.1, first.2 ++ rest.2)

/-- The channel table never outgrows the 8-bit interface. -/
def channel_count_inv (s : HwState) : Prop :=
  s.hardwareChannels.length ≤ 255

instance (s : HwState) : Decidable (channel_count_inv s) := by
  unfold channel_count_inv
  infer_instance

/-- Sample frame for concrete instantiations: channel 0, identifier 1. -/
def frameA : CANMessageFrame := ⟨0, 1, 0, []⟩

/-- Sample frame for concrete instantiations: channel 0, identifier 2. -/
def frameB : CANMessageFrame := ⟨0, 2, 0, []⟩

/-- A channel holding a valid driver and empty queues. -/
def sampleChannel : CANHardware := ⟨some (some 0), [], [], false⟩

/-- A stopped one-channel registry whose channel has a valid driver. -/
def sampleState : HwState := ⟨[sampleChannel], false, 4, false, false⟩

/-- A stopped one-channel registry with no driver assigned. -/
def sampleNoDriver : HwState := ⟨[emptyChannel], false, 4, false, false⟩

/-- A running one-channel registry with non-empty queues. -/
def sampleRunning : HwState :=
  ⟨[⟨some (some 0), [frameA], [frameB], true⟩], true, 4, true, true⟩

/-- A driver write oracle that accepts only identifier-1 frames. -/
def writeOnlyA (f : CANMessageFrame) : Bool := f.identifier == 1

/-! ## Helper lemmas about event traces and the transmit drain -/

theorem receivedFrames_append (a b : List HwEvent) :
    receivedFrames (a ++ b) = receivedFrames a ++ receivedFrames b := by
  simp [receivedFrames]

theorem transmittedFrames_append (a b : List HwEvent) :
    transmittedFrames (a ++ b) = transmittedFrames a ++ transmittedFrames b := by
  simp [transmittedFrames]

theorem receivedFrames_map_rx (rs : List CANMessageFrame) :
    receivedFrames (rs.map HwEvent.frameReceived) = rs := by
  induction rs with
  | nil => rfl
  | cons r rs ih =>
    show r :: receivedFrames (rs.map HwEvent.frameReceived) = r :: rs
    rw [ih]

theorem receivedFrames_map_tx (ts : List CANMessageFrame) :
    receivedFrames (ts.map HwEvent.frameTransmitted) = [] := by
  induction ts with
  | nil => rfl
  | cons t ts ih => simp [receivedFrames, List.filterMap_cons, ih]

theorem transmittedFrames_map_tx (ts : List CANMessageFrame) :
    transmittedFrames (ts.map HwEvent.frameTransmitted) = ts := by
  induction ts with
  | nil => rfl
  | cons t ts ih =>
    show t :: transmittedFrames (ts.map HwEvent.frameTransmitted) = t :: ts
    rw [ih]

theorem transmittedFrames_map_rx (rs : List CANMessageFrame) :
    transmittedFrames (rs.map HwEvent.frameReceived) = [] := by
  induction rs with
  | nil => rfl
  | cons r rs ih => simp [transmittedFrames, List.filterMap_cons, ih]

/-- When every write succeeds, one cycle's drain hands the whole queue to
the driver in queue order, duplicating nothing, and empties the queue. -/
theorem transmit_drain_all_ok (w : CANMessageFrame → Bool)
    (q : List CANMessageFrame) (h : ∀ f ∈ q, w f = true) :
    transmit_drain w q = (q, []) := by
  induction q with
  | nil => rfl
  | cons f rest ih =>
    have hf : w f = true := h f (List.mem_cons_self f rest)
    have hrest : ∀ g ∈ rest, w g = true := fun g hg => h g (List.mem_cons_of_mem f hg)
    simp [transmit_drain, hf, ih hrest]

/-- When the write of `X` fails after the writes of `pre` succeed, the
drain stops at `X`: exactly `pre` is handed over and `X` with everything
behind it stays queued. -/
theorem transmit_drain_stops (w : CANMessageFrame → Bool)
    (pre post : List CANMessageFrame) (X : CANMessageFrame)
    (hpre : ∀ f ∈ pre, w f = true) (hX : w X = false) :
    transmit_drain w (pre ++ X :: post) = (pre, X :: post) := by
  induction pre with
  | nil => simp [transmit_drain, hX]
  | cons f rest ih =>
    have hf : w f = true := hpre f (List.mem_cons_self f rest)
    have hrest : ∀ g ∈ rest, w g = true := fun g hg => hpre g (List.mem_cons_of_mem f hg)
    simp [transmit_drain, hf, ih hrest]

/-! ## Claim theorems -/

/-- C4: `transmit_can_message` returns failure and leaves the state (hence
every transmit queue) unchanged exactly when the frame's channel index is
out of range or the channel has no assigned driver; otherwise it appends
the frame at the back of that channel's transmit queue, leaves every other
channel untouched, and returns success. -/
theorem claim_C4_transmit_enqueue (packet : CANMessageFrame) (s : HwState) :
    ((transmit_can_message packet s).1 = false ↔
      s.hardwareChannels[packet.channel % 256]? = none ∨
        ∃ hw, s.hardwareChannels[packet.channel % 256]? = some hw ∧
          hw.frameHandler = none) ∧
    ((transmit_can_message packet s).1 = false →
      (transmit_can_message packet s).2 = s) ∧
    (∀ hw d, s.hardwareChannels[packet.channel % 256]? = some hw →
      hw.frameHandler = some d →
      (transmit_can_message packet s).1 = true ∧
      (transmit_can_message packet s).2.hardwareChannels[packet.channel % 256]? =
        some { hw with
          messagesToBeTransmitted := hw.messagesToBeTransmitted ++ [packet] } ∧
      ∀ j, j ≠ packet.channel % 256 →
        (transmit_can_message packet s).2.hardwareChannels[j]? =
          s.hardwareChannels[j]?) := by
  cases h : s.hardwareChannels[packet.channel % 256]? with
  | none =>
    refine ⟨by simp [transmit_can_message, h], fun _ => by simp [transmit_can_message, h], ?_⟩
    intro hw d hhw
    exact absurd hhw (by simp)
  | some hw =>
    cases hh : hw.frameHandler with
    | none =>
      refine ⟨by simp [transmit_can_message, h, hh], fun _ => by simp [transmit_can_message, h, hh], ?_⟩
      intro hw' d hhw' hd
      cases hhw'
      rw [hh] at hd
      exact absurd hd (by simp)
    | some d =>
      have hlen : packet.channel % 256 < s.hardwareChannels.length :=
        (List.getElem?_eq_some_iff.mp h).1
      refine ⟨by simp [transmit_can_message, h, hh], ?_, ?_⟩
      · intro hfail
        exact absurd hfail (by simp [transmit_can_message, h, hh])
      · intro hw' d' hhw' hd'
        cases hhw'
        refine ⟨by simp [transmit_can_message, h, hh], ?_, ?_⟩
        · simp [transmit_can_message, h, hh, List.getElem?_set_self hlen]
        · intro j hj
          simp [transmit_can_message, h, hh, List.getElem?_set_ne (Ne.symm hj)]

/-- C5: `set_number_of_can_channels` fails with no mutation while the
system is running; while stopped it resizes the table to the requested
8-bit count, keeping the surviving prefix of channels, dropping the rest
and allocating fresh empty unassigned channels beyond the old length. -/
theorem claim_C5_set_number_of_channels (value : Nat) (s : HwState) :
    (s.threadsStarted = true →
      set_number_of_can_channels value s = (false, s)) ∧
    (s.threadsStarted = false →
      (set_number_of_can_channels value s).1 = true ∧
      (set_number_of_can_channels value s).2.threadsStarted = false ∧
      get_number_of_can_channels (set_number_of_can_channels value s).2 =
        value % 256 ∧
      (∀ i, i < value % 256 → i < s.hardwareChannels.length →
        (set_number_of_can_channels value s).2.hardwareChannels[i]? =
          s.hardwareChannels[i]?) ∧
      (∀ i, s.hardwareChannels.length ≤ i → i < value % 256 →
        (set_number_of_can_channels value s).2.hardwareChannels[i]? =
          some emptyChannel)) := by
  constructor
  · intro hrun
    simp [set_number_of_can_channels, hrun]
  · intro hstop
    have hlen :
        ((s.hardwareChannels.take (value % 256)) ++
          List.replicate (value % 256 - s.hardwareChannels.length) emptyChannel).length =
        value % 256 := by
      simp [List.length_take]
      omega
    refine ⟨by simp [set_number_of_can_channels, hstop], by simp [set_number_of_can_channels, hstop],
      ?_, ?_, ?_⟩
    · simpa [set_number_of_can_channels, hstop, get_number_of_can_channels] using hlen
    · intro i hiv hilen
      have htake : i < (s.hardwareChannels.take (value % 256)).length := by
        simp [List.length_take]; omega
      simp [set_number_of_can_channels, hstop, List.getElem?_append_left htake,
        List.getElem?_take_of_lt hiv]
    · intro i hilen hiv
      have htake : (s.hardwareChannels.take (value % 256)).length ≤ i := by
        simp [List.length_take]; omega
      have hrep : i - (s.hardwareChannels.take (value % 256)).length <
          value % 256 - s.hardwareChannels.length := by
        simp [List.length_take]; omega
      simp only [set_number_of_can_channels, hstop, Bool.false_eq_true, if_false]
      rw [List.getElem?_append_right htake, List.getElem?_replicate]
      simp only [List.length_take]
      simp
      omega

/-- C6: `assign_can_channel_frame_handler` fails, with no mutation, exactly
when the system is running, the 8-bit index is out of range, or the channel
already has a driver assigned; `unassign_can_channel_frame_handler` fails
under the same conditions with the assignment check inverted (it fails when
nothing is assigned). -/
theorem claim_C6_assign_unassign_failures (channelIndex : Nat)
    (canDriver : DriverHandle) (s : HwState) :
    ((assign_can_channel_frame_handler channelIndex canDriver s).1 = false ↔
      s.threadsStarted = true ∨
        s.hardwareChannels[channelIndex % 256]? = none ∨
        ∃ hw, s.hardwareChannels[channelIndex % 256]? = some hw ∧
          hw.frameHandler ≠ none) ∧
    ((assign_can_channel_frame_handler channelIndex canDriver s).1 = false →
      (assign_can_channel_frame_handler channelIndex canDriver s).2 = s) ∧
    ((unassign_can_channel_frame_handler channelIndex s).1 = false ↔
      s.threadsStarted = true ∨
        s.hardwareChannels[channelIndex % 256]? = none ∨
        ∃ hw, s.hardwareChannels[channelIndex % 256]? = some hw ∧
          hw.frameHandler = none) ∧
    ((unassign_can_channel_frame_handler channelIndex s).1 = false →
      (unassign_can_channel_frame_handler channelIndex s).2 = s) := by
  cases hrun : s.threadsStarted with
  | true =>
    refine ⟨by simp [assign_can_channel_frame_handler, hrun], ?_,
      by simp [unassign_can_channel_frame_handler, hrun], ?_⟩
    · intro _; simp [assign_can_channel_frame_handler, hrun]
    · intro _; simp [unassign_can_channel_frame_handler, hrun]
  | false =>
    cases h : s.hardwareChannels[channelIndex % 256]? with
    | none =>
      refine ⟨by simp [assign_can_channel_frame_handler, hrun, h], ?_,
        by simp [unassign_can_channel_frame_handler, hrun, h], ?_⟩
      · intro _; simp [assign_can_channel_frame_handler, hrun, h]
      · intro _; simp [unassign_can_channel_frame_handler, hrun, h]
    | some hw =>
      cases hh : hw.frameHandler with
      | none =>
        refine ⟨by simp [assign_can_channel_frame_handler, hrun, h, hh], ?_,
          by simp [unassign_can_channel_frame_handler, hrun, h, hh], ?_⟩
        · intro hfail
          exact absurd hfail (by simp [assign_can_channel_frame_handler, hrun, h, hh])
        · intro _; simp [unassign_can_channel_frame_handler, hrun, h, hh]
      | some d =>
        refine ⟨by simp [assign_can_channel_frame_handler, hrun, h, hh], ?_,
          by simp [unassign_can_channel_frame_handler, hrun, h, hh], ?_⟩
        · intro _; simp [assign_can_channel_frame_handler, hrun, h, hh]
        · intro hfail
          exact absurd hfail (by simp [unassign_can_channel_frame_handler, hrun, h, hh])

/-- A channel with empty queues contributes no frame events to a cycle. -/
theorem process_channel_no_queues (w : CANMessageFrame → Bool) (hw : CANHardware)
    (htx : hw.messagesToBeTransmitted = []) (hrx : hw.receivedMessages = []) :
    (process_channel w hw).2 = [] := by
  cases hh : hw.frameHandler with
  | none => simp [process_channel, hh, hrx]
  | some d =>
    cases d with
    | none => simp [process_channel, hh, hrx]
    | some n => simp [process_channel, hh, hrx, htx, transmit_drain]

theorem receivedFrames_nil : receivedFrames [] = [] := rfl

theorem transmittedFrames_nil : transmittedFrames [] = [] := rfl

theorem receivedFrames_tick : receivedFrames [HwEvent.periodicTick] = [] := rfl

theorem transmittedFrames_tick : transmittedFrames [HwEvent.periodicTick] = [] := rfl

/-- The update cycle treats a channel table head-first: unfolding lemma. -/
theorem update_channels_cons (writeOk : Nat → CANMessageFrame → Bool)
    (idx : Nat) (hw : CANHardware) (rest : List CANHardware) :
    update_channels writeOk idx (hw :: rest) =
      ((process_channel (writeOk idx) hw).1 ::
          (update_channels writeOk (idx + 1) rest).1,
        (process_channel (writeOk idx) hw).2 ++
          (update_channels writeOk (idx + 1) rest).2) := rfl

/-- A table of channels with empty queues contributes no frame events. -/
theorem update_channels_no_frames (writeOk : Nat → CANMessageFrame → Bool)
    (idx : Nat) (chs : List CANHardware)
    (h : ∀ hw ∈ chs, hw.messagesToBeTransmitted = [] ∧ hw.receivedMessages = []) :
    receivedFrames (update_channels writeOk idx chs).2 = [] ∧
    transmittedFrames (update_channels writeOk idx chs).2 = [] := by
  induction chs generalizing idx with
  | nil => exact ⟨rfl, rfl⟩
  | cons hw rest ih =>
    have hhd := h hw (List.mem_cons_self _ _)
    have htl : ∀ g ∈ rest, g.messagesToBeTransmitted = [] ∧ g.receivedMessages = [] :=
      fun g hg => h g (List.mem_cons_of_mem _ hg)
    have hblock := process_channel_no_queues (writeOk idx) hw hhd.1 hhd.2
    have hrest := ih (idx + 1) htl
    rw [update_channels_cons]
    constructor
    · rw [show ((process_channel (writeOk idx) hw).1 ::
            (update_channels writeOk (idx + 1) rest).1,
          (process_channel (writeOk idx) hw).2 ++
            (update_channels writeOk (idx + 1) rest).2).2 =
          (process_channel (writeOk idx) hw).2 ++
            (update_channels writeOk (idx + 1) rest).2 from rfl,
        receivedFrames_append, hblock, hrest.1, receivedFrames_nil]
      rfl
    · rw [show ((process_channel (writeOk idx) hw).1 ::
            (update_channels writeOk (idx + 1) rest).1,
          (process_channel (writeOk idx) hw).2 ++
            (update_channels writeOk (idx + 1) rest).2).2 =
          (process_channel (writeOk idx) hw).2 ++
            (update_channels writeOk (idx + 1) rest).2 from rfl,
        transmittedFrames_append, hblock, hrest.2, transmittedFrames_nil]
      rfl

/-- C3: `stop` fails with no side effect when the system is not running;
when running it succeeds, clears every thread handle, discards all queued
frames of every channel and flips the lifecycle flag to Stopped, so that an
update cycle on the resulting state publishes no frame event. -/
theorem claim_C3_stop (writeOk : Nat → CANMessageFrame → Bool) (s : HwState) :
    (s.threadsStarted = false → stop s = (false, s)) ∧
    (s.threadsStarted = true →
      (stop s).1 = true ∧
      (stop s).2.threadsStarted = false ∧
      (stop s).2.updateThread = false ∧
      (stop s).2.wakeupThread = false ∧
      (∀ hw ∈ (stop s).2.hardwareChannels,
        hw.messagesToBeTransmitted = [] ∧ hw.receivedMessages = [] ∧
          hw.receiveMessageThread = false) ∧
      receivedFrames (update_thread_function writeOk (stop s).2).2 = [] ∧
      transmittedFrames (update_thread_function writeOk (stop s).2).2 = []) := by
  constructor
  · intro hstop
    simp [stop, hstop]
  · intro hrun
    have hmem : ∀ hw ∈ (stop s).2.hardwareChannels,
        hw.messagesToBeTransmitted = [] ∧ hw.receivedMessages = [] ∧
          hw.receiveMessageThread = false := by
      intro hw hhw
      have hhw' : hw ∈ s.hardwareChannels.map (fun g =>
          { g with
            receiveMessageThread := false
            messagesToBeTransmitted := ([] : List CANMessageFrame)
            receivedMessages := ([] : List CANMessageFrame) }) := by
        simpa [stop, hrun] using hhw
      rcases List.mem_map.mp hhw' with ⟨g, -, rfl⟩
      exact ⟨rfl, rfl, rfl⟩
    have hframes := update_channels_no_frames writeOk 0 (stop s).2.hardwareChannels
      (fun hw hhw => ⟨(hmem hw hhw).1, (hmem hw hhw).2.1⟩)
    refine ⟨by simp [stop, hrun], by simp [stop, hrun], by simp [stop, hrun],
      by simp [stop, hrun], hmem, ?_, ?_⟩
    · rw [show (update_thread_function writeOk (stop s).2).2 =
          (update_channels writeOk 0 (stop s).2.hardwareChannels).2 ++
            [HwEvent.periodicTick] from rfl,
        receivedFrames_append, hframes.1, receivedFrames_tick]
      rfl
    · rw [show (update_thread_function writeOk (stop s).2).2 =
          (update_channels writeOk 0 (stop s).2.hardwareChannels).2 ++
            [HwEvent.periodicTick] from rfl,
        transmittedFrames_append, hframes.2, transmittedFrames_tick]
      rfl

/-- C7: `start` fails with no side effect when already running or when the
channels are not configured correctly (an assigned-but-null driver); on
success it marks the receive thread spawned exactly for the channels with
an assigned driver, spawns the main update thread and the wakeup thread,
and flips the lifecycle flag to Running. -/
theorem claim_C7_start (s : HwState) :
    ((start s).1 = false ↔
      s.threadsStarted = true ∨
        s.hardwareChannels.all channel_configured_ok = false) ∧
    ((start s).1 = false → (start s).2 = s) ∧
    ((start s).1 = true →
      (start s).2.threadsStarted = true ∧
      (start s).2.updateThread = true ∧
      (start s).2.wakeupThread = true ∧
      ∀ i : Nat, (start s).2.hardwareChannels[i]? =
        (s.hardwareChannels[i]?).map fun hw : CANHardware =>
          { hw with receiveMessageThread := hw.frameHandler.isSome }) := by
  cases hrun : s.threadsStarted with
  | true =>
    refine ⟨by simp [start, hrun], fun _ => by simp [start, hrun], ?_⟩
    intro habs
    exact absurd habs (by simp [start, hrun])
  | false =>
    cases hok : s.hardwareChannels.all channel_configured_ok with
    | false =>
      refine ⟨by simp [start, hrun, hok], fun _ => by simp [start, hrun, hok], ?_⟩
      intro habs
      exact absurd habs (by simp [start, hrun, hok])
    | true =>
      refine ⟨by simp [start, hrun, hok], ?_, ?_⟩
      · intro habs
        exact absurd habs (by simp [start, hrun, hok])
      · intro _
        refine ⟨by simp [start, hrun, hok], by simp [start, hrun, hok],
          by simp [start, hrun, hok], ?_⟩
        intro i
        simp [start, hrun, hok]

/-- C9: the periodic update interval defaults to the header's
`PERIODIC_UPDATE_INTERVAL = 4` milliseconds, the accessor pair sets and
reads it (as a 32-bit value), no other operation of the interface mutates
it, and the wakeup thread sleeps for the configured interval between wake
signals. -/
theorem claim_C9_periodic_interval (v idx : Nat) (d : DriverHandle)
    (packet : CANMessageFrame) (frames : List CANMessageFrame)
    (writeOk : Nat → CANMessageFrame → Bool) (s : HwState) :
    get_periodic_update_interval initialState = 4 ∧
    PERIODIC_UPDATE_INTERVAL = 4 ∧
    get_periodic_update_interval (set_periodic_update_interval v s) = v % 2 ^ 32 ∧
    periodic_update_function_sleep s = get_periodic_update_interval s ∧
    (set_number_of_can_channels v s).2.periodicUpdateInterval =
      s.periodicUpdateInterval ∧
    (assign_can_channel_frame_handler idx d s).2.periodicUpdateInterval =
      s.periodicUpdateInterval ∧
    (unassign_can_channel_frame_handler idx s).2.periodicUpdateInterval =
      s.periodicUpdateInterval ∧
    (transmit_can_message packet s).2.periodicUpdateInterval =
      s.periodicUpdateInterval ∧
    (start s).2.periodicUpdateInterval = s.periodicUpdateInterval ∧
    (stop s).2.periodicUpdateInterval = s.periodicUpdateInterval ∧
    (receive_message_thread_function idx frames s).periodicUpdateInterval =
      s.periodicUpdateInterval ∧
    (update_thread_function writeOk s).1.periodicUpdateInterval =
      s.periodicUpdateInterval := by
  refine ⟨rfl, rfl, rfl, rfl, ?_, ?_, ?_, ?_, ?_, ?_, ?_, rfl⟩
  · simp only [set_number_of_can_channels]
    split <;> rfl
  · simp only [assign_can_channel_frame_handler]
    repeat first | rfl | split
  · simp only [unassign_can_channel_frame_handler]
    repeat first | rfl | split
  · simp only [transmit_can_message]
    repeat first | rfl | split
  · simp only [start]
    repeat first | rfl | split
  · simp only [stop]
    repeat first | rfl | split
  · simp only [receive_message_thread_function]
    repeat first | rfl | split

/-- A successful transmit enqueue, in closed form. -/
theorem transmit_can_message_success (packet : CANMessageFrame) (s : HwState)
    (hw0 : CANHardware) (d0 : DriverHandle)
    (hhw : s.hardwareChannels[packet.channel % 256]? = some hw0)
    (hd : hw0.frameHandler = some d0) :
    transmit_can_message packet s =
      (true,
        { s with
          hardwareChannels :=
            s.hardwareChannels.set (packet.channel % 256)
              { hw0 with
                messagesToBeTransmitted := hw0.messagesToBeTransmitted ++ [packet] } }) := by
  simp [transmit_can_message, hhw, hd]

/-- Each cycle a channel publishes precisely its queued received frames,
in FIFO order. -/
theorem receivedFrames_process_channel (w : CANMessageFrame → Bool)
    (hw : CANHardware) :
    receivedFrames (process_channel w hw).2 = hw.receivedMessages := by
  cases hh : hw.frameHandler with
  | none => simp [process_channel, hh, receivedFrames_map_rx]
  | some dd =>
    cases dd with
    | none => simp [process_channel, hh, receivedFrames_map_rx]
    | some n =>
      simp [process_channel, hh, receivedFrames_append, receivedFrames_map_rx,
        receivedFrames_map_tx]

/-- A cycle leaves the channel's receive queue empty. -/
theorem process_channel_rx_empty (w : CANMessageFrame → Bool) (hw : CANHardware) :
    (process_channel w hw).1.receivedMessages = [] := by
  cases hh : hw.frameHandler with
  | none => simp [process_channel, hh]
  | some dd =>
    cases dd with
    | none => simp [process_channel, hh]
    | some n => simp [process_channel, hh]

/-- C1: frames enqueued on a channel are handed to the driver in enqueue
order — the enqueue appends at the back of the FIFO queue, and a cycle in
which every write succeeds hands over exactly the queue, in order, leaving
nothing queued; a failed write stalls the queue, keeping the failed frame
and everything behind it; under a transient failure the failed frame is
published via frame-transmitted exactly once, before every frame queued
behind it. -/
theorem claim_C1_transmit_fifo_backpressure
    (w w1 w2 : CANMessageFrame → Bool)
    (q pre post : List CANMessageFrame) (X : CANMessageFrame)
    (hw : CANHardware) (d : Nat)
    (s : HwState) (packet : CANMessageFrame) (hw0 : CANHardware)
    (d0 : DriverHandle) :
    (s.hardwareChannels[packet.channel % 256]? = some hw0 →
      hw0.frameHandler = some d0 →
      (transmit_can_message packet s).2.hardwareChannels[packet.channel % 256]? =
        some { hw0 with
          messagesToBeTransmitted := hw0.messagesToBeTransmitted ++ [packet] }) ∧
    ((∀ f ∈ q, w f = true) → transmit_drain w q = (q, [])) ∧
    ((∀ f ∈ pre, w f = true) → w X = false →
      transmit_drain w (pre ++ X :: post) = (pre, X :: post)) ∧
    (hw.frameHandler = some (some d) →
      hw.messagesToBeTransmitted = X :: post →
      w1 X = false →
      (∀ f ∈ X :: post, w2 f = true) →
      transmittedFrames (process_channel w1 hw).2 = [] ∧
      (process_channel w1 hw).1.messagesToBeTransmitted = X :: post ∧
      transmittedFrames ((process_channel w1 hw).2 ++
        (process_channel w2 (process_channel w1 hw).1).2) = X :: post ∧
      (X ∉ post →
        (transmittedFrames ((process_channel w1 hw).2 ++
          (process_channel w2 (process_channel w1 hw).1).2)).count X = 1)) := by
  refine ⟨?_, fun h => transmit_drain_all_ok w q h,
    fun h1 h2 => transmit_drain_stops w pre post X h1 h2, ?_⟩
  · intro hhw hd
    have hlen : packet.channel % 256 < s.hardwareChannels.length :=
      (List.getElem?_eq_some_iff.mp hhw).1
    rw [transmit_can_message_success packet s hw0 d0 hhw hd]
    exact List.getElem?_set_self hlen
  · intro hhandler hqueue hfail hok
    have hdrain1 : transmit_drain w1 hw.messagesToBeTransmitted = ([], X :: post) := by
      rw [hqueue]
      exact transmit_drain_stops w1 [] post X (by intro f hf; cases hf) hfail
    have hcycle1 : process_channel w1 hw =
        ({ hw with receivedMessages := [], messagesToBeTransmitted := X :: post },
          hw.receivedMessages.map HwEvent.frameReceived ++
            ([] : List CANMessageFrame).map HwEvent.frameTransmitted) := by
      simp [process_channel, hhandler, hdrain1]
    have hdrain2 : transmit_drain w2 (X :: post) = (X :: post, []) :=
      transmit_drain_all_ok w2 (X :: post) hok
    have hcycle2 : process_channel w2 (process_channel w1 hw).1 =
        ({ hw with receivedMessages := [], messagesToBeTransmitted := [] },
          ([] : List CANMessageFrame).map HwEvent.frameReceived ++
            (X :: post).map HwEvent.frameTransmitted) := by
      rw [hcycle1]
      simp [process_channel, hhandler, hdrain2]
    have htx1 : transmittedFrames (process_channel w1 hw).2 = [] := by
      rw [hcycle1]
      simp [transmittedFrames_append, transmittedFrames_map_rx, transmittedFrames_map_tx]
    have htx12 : transmittedFrames ((process_channel w1 hw).2 ++
        (process_channel w2 (process_channel w1 hw).1).2) = X :: post := by
      rw [transmittedFrames_append, htx1, hcycle2]
      simp only [transmittedFrames_append, transmittedFrames_map_rx,
        transmittedFrames_map_tx, List.nil_append, List.append_nil]
    refine ⟨htx1, by rw [hcycle1], htx12, ?_⟩
    intro hnotin
    rw [htx12]
    rw [List.count_cons_self, List.count_eq_zero.mpr hnotin]

/-- C2: frames read from a channel's driver are deposited at the back of
that channel's receive queue in read order, and each cycle publishes the
whole queue through the frame-received dispatcher, in FIFO order, exactly
once: the queue is left empty and an immediate second cycle publishes
nothing for that channel. -/
theorem claim_C2_receive_publish (w : CANMessageFrame → Bool)
    (hw : CANHardware) (ch : Nat) (framesRead : List CANMessageFrame)
    (s : HwState) (hw0 : CANHardware) :
    (s.hardwareChannels[ch]? = some hw0 →
      (receive_message_thread_function ch framesRead s).hardwareChannels[ch]? =
        some { hw0 with
          receivedMessages := hw0.receivedMessages ++ framesRead }) ∧
    receivedFrames (process_channel w hw).2 = hw.receivedMessages ∧
    (process_channel w hw).1.receivedMessages = [] ∧
    receivedFrames (process_channel w (process_channel w hw).1).2 = [] := by
  refine ⟨?_, receivedFrames_process_channel w hw, process_channel_rx_empty w hw, ?_⟩
  · intro hhw
    have hlen : ch < s.hardwareChannels.length :=
      (List.getElem?_eq_some_iff.mp hhw).1
    simp [receive_message_thread_function, hhw]
    exact List.getElem?_set_self hlen
  · rw [receivedFrames_process_channel, process_channel_rx_empty]

theorem tickCount_append (a b : List HwEvent) :
    tickCount (a ++ b) = tickCount a + tickCount b := by
  simp [tickCount, List.filter_append]

theorem tickCount_map_rx (rs : List CANMessageFrame) :
    tickCount (rs.map HwEvent.frameReceived) = 0 := by
  induction rs with
  | nil => rfl
  | cons r rs ih => simp [tickCount, List.filter_cons, ih]

theorem tickCount_map_tx (ts : List CANMessageFrame) :
    tickCount (ts.map HwEvent.frameTransmitted) = 0 := by
  induction ts with
  | nil => rfl
  | cons t ts ih => simp [tickCount, List.filter_cons, ih]

/-- The per-channel event block of a cycle is receive events followed by
transmit events: no interleaving, no tick. -/
theorem process_channel_shape (w : CANMessageFrame → Bool) (hw : CANHardware) :
    ∃ rs ts : List CANMessageFrame,
      (process_channel w hw).2 =
        rs.map HwEvent.frameReceived ++ ts.map HwEvent.frameTransmitted := by
  cases hh : hw.frameHandler with
  | none => exact ⟨hw.receivedMessages, [], by simp [process_channel, hh]⟩
  | some dd =>
    cases dd with
    | none => exact ⟨hw.receivedMessages, [], by simp [process_channel, hh]⟩
    | some n =>
      exact ⟨hw.receivedMessages, (transmit_drain w hw.messagesToBeTransmitted).1,
        by simp [process_channel, hh]⟩

/-- The events of the table walk decompose into one block per channel, in
index order, each block produced by that channel's `process_channel`. -/
theorem update_channels_characterization
    (writeOk : Nat → CANMessageFrame → Bool) (idx : Nat)
    (chs : List CANHardware) :
    ∃ blocks : List (List HwEvent),
      blocks.length = chs.length ∧
      (update_channels writeOk idx chs).2 = blocks.flatten ∧
      (∀ i : Nat, blocks[i]? =
        (chs[i]?).map fun hw => (process_channel (writeOk (idx + i)) hw).2) ∧
      (∀ i : Nat, (update_channels writeOk idx chs).1[i]? =
        (chs[i]?).map fun hw => (process_channel (writeOk (idx + i)) hw).1) ∧
      ∀ b ∈ blocks, ∃ rs ts : List CANMessageFrame,
        b = rs.map HwEvent.frameReceived ++ ts.map HwEvent.frameTransmitted := by
  induction chs generalizing idx with
  | nil =>
    refine ⟨[], rfl, rfl, by simp, by simp [update_channels], by simp⟩
  | cons hw rest ih =>
    obtain ⟨blocks, hlen, hjoin, hget, hst, hshape⟩ := ih (idx + 1)
    refine ⟨(process_channel (writeOk idx) hw).2 :: blocks, by simp [hlen], ?_, ?_, ?_, ?_⟩
    · rw [update_channels_cons]
      show (process_channel (writeOk idx) hw).2 ++ (update_channels writeOk (idx + 1) rest).2 =
        ((process_channel (writeOk idx) hw).2 :: blocks).flatten
      rw [hjoin, List.flatten_cons]
    · intro i
      cases i with
      | zero => simp
      | succ n =>
        have harith : idx + (n + 1) = idx + 1 + n := by omega
        simp only [List.getElem?_cons_succ, harith]
        exact hget n
    · intro i
      rw [update_channels_cons]
      cases i with
      | zero => simp
      | succ n =>
        have harith : idx + (n + 1) = idx + 1 + n := by omega
        simp only [List.getElem?_cons_succ, harith]
        exact hst n
    · intro b hb
      rcases List.mem_cons.mp hb with hb | hb
      · exact hb ▸ process_channel_shape (writeOk idx) hw
      · exact hshape b hb

/-- Event blocks of the shape receive-then-transmit contain no tick. -/
theorem tickCount_join_blocks (blocks : List (List HwEvent))
    (h : ∀ b ∈ blocks, ∃ rs ts : List CANMessageFrame,
      b = rs.map HwEvent.frameReceived ++ ts.map HwEvent.frameTransmitted) :
    tickCount blocks.flatten = 0 := by
  induction blocks with
  | nil => rfl
  | cons b rest ih =>
    obtain ⟨rs, ts, hb⟩ := h b (List.mem_cons_self _ _)
    have hrest := ih fun g hg => h g (List.mem_cons_of_mem _ hg)
    rw [List.flatten_cons, tickCount_append, hb, tickCount_append,
      tickCount_map_rx, tickCount_map_tx, hrest]

/-- C8: every update cycle processes the channels in index order, one event
block per channel, each block publishing the whole receive queue before any
transmit event of that channel, and publishes exactly one periodic tick,
placed after all the channel blocks of the cycle. -/
theorem claim_C8_update_cycle_order (writeOk : Nat → CANMessageFrame → Bool)
    (s : HwState) :
    ∃ blocks : List (List HwEvent),
      blocks.length = s.hardwareChannels.length ∧
      (update_thread_function writeOk s).2 = blocks.flatten ++ [HwEvent.periodicTick] ∧
      (∀ i : Nat, blocks[i]? =
        (s.hardwareChannels[i]?).map fun hw => (process_channel (writeOk i) hw).2) ∧
      (∀ i : Nat, ∀ hw, s.hardwareChannels[i]? = some hw →
        ∃ b, blocks[i]? = some b ∧ receivedFrames b = hw.receivedMessages) ∧
      (∀ b ∈ blocks, ∃ rs ts : List CANMessageFrame,
        b = rs.map HwEvent.frameReceived ++ ts.map HwEvent.frameTransmitted) ∧
      tickCount (update_thread_function writeOk s).2 = 1 := by
  obtain ⟨blocks, hlen, hjoin, hget, hst, hshape⟩ :=
    update_channels_characterization writeOk 0 s.hardwareChannels
  have hget0 : ∀ i : Nat, blocks[i]? =
      (s.hardwareChannels[i]?).map fun hw => (process_channel (writeOk i) hw).2 := by
    intro i
    simpa using hget i
  have hevents : (update_thread_function writeOk s).2 =
      blocks.flatten ++ [HwEvent.periodicTick] := by
    show (update_channels writeOk 0 s.hardwareChannels).2 ++ [HwEvent.periodicTick] =
      blocks.flatten ++ [HwEvent.periodicTick]
    rw [hjoin]
  refine ⟨blocks, hlen, hevents, hget0, ?_, hshape, ?_⟩
  · intro i hw hhw
    refine ⟨(process_channel (writeOk i) hw).2, ?_, receivedFrames_process_channel _ _⟩
    rw [hget0 i, hhw]
    rfl
  · rw [hevents, tickCount_append, tickCount_join_blocks blocks hshape]
    rfl

/-- The table walk of a cycle does not change the number of channels. -/
theorem update_channels_length (writeOk : Nat → CANMessageFrame → Bool)
    (idx : Nat) (chs : List CANHardware) :
    (update_channels writeOk idx chs).1.length = chs.length := by
  induction chs generalizing idx with
  | nil => rfl
  | cons hw rest ih =>
    rw [update_channels_cons]
    show ((process_channel (writeOk idx) hw).1 ::
      (update_channels writeOk (idx + 1) rest).1).length = (hw :: rest).length
    simp [ih]

/-- C10: channel counts and indices are 8-bit throughout the interface —
the resize takes its argument mod 256 (so at most 255 channels result),
every index-taking operation only addresses the index mod 256, every
operation preserves the at-most-255 bound, and the count getter reports the
configured count, which stays at most 255. -/
theorem claim_C10_channel_table_8bit (v idx : Nat) (d : DriverHandle)
    (packet : CANMessageFrame) (frames : List CANMessageFrame)
    (writeOk : Nat → CANMessageFrame → Bool) (s : HwState) :
    channel_count_inv initialState ∧
    (channel_count_inv s → channel_count_inv (set_number_of_can_channels v s).2) ∧
    (channel_count_inv s →
      channel_count_inv (assign_can_channel_frame_handler idx d s).2) ∧
    (channel_count_inv s →
      channel_count_inv (unassign_can_channel_frame_handler idx s).2) ∧
    (channel_count_inv s → channel_count_inv (transmit_can_message packet s).2) ∧
    (channel_count_inv s → channel_count_inv (start s).2) ∧
    (channel_count_inv s → channel_count_inv (stop s).2) ∧
    (channel_count_inv s →
      channel_count_inv (receive_message_thread_function idx frames s)) ∧
    (channel_count_inv s → channel_count_inv (update_thread_function writeOk s).1) ∧
    get_number_of_can_channels s = s.hardwareChannels.length ∧
    (channel_count_inv s → get_number_of_can_channels s ≤ 255) ∧
    set_number_of_can_channels v s = set_number_of_can_channels (v % 256) s ∧
    assign_can_channel_frame_handler idx d s =
      assign_can_channel_frame_handler (idx % 256) d s ∧
    unassign_can_channel_frame_handler idx s =
      unassign_can_channel_frame_handler (idx % 256) s := by
  have hvmod : v % 256 % 256 = v % 256 := Nat.mod_mod_of_dvd v (dvd_refl 256)
  have himod : idx % 256 % 256 = idx % 256 := Nat.mod_mod_of_dvd idx (dvd_refl 256)
  refine ⟨by simp [channel_count_inv, initialState], ?_, ?_, ?_, ?_, ?_, ?_, ?_, ?_,
    rfl, fun h => h, ?_, ?_, ?_⟩
  · intro hinv
    cases hrun : s.threadsStarted with
    | true => simpa [set_number_of_can_channels, hrun] using hinv
    | false =>
      have hv : v % 256 < 256 := Nat.mod_lt _ (by omega)
      simp [set_number_of_can_channels, hrun, channel_count_inv, List.length_take]
      omega
  · intro hinv
    simp only [assign_can_channel_frame_handler]
    repeat' split
    all_goals simpa [channel_count_inv] using hinv
  · intro hinv
    simp only [unassign_can_channel_frame_handler]
    repeat' split
    all_goals simpa [channel_count_inv] using hinv
  · intro hinv
    simp only [transmit_can_message]
    repeat' split
    all_goals simpa [channel_count_inv] using hinv
  · intro hinv
    simp only [start]
    repeat' split
    all_goals simpa [channel_count_inv] using hinv
  · intro hinv
    simp only [stop]
    repeat' split
    all_goals simpa [channel_count_inv] using hinv
  · intro hinv
    simp only [receive_message_thread_function]
    repeat' split
    all_goals simpa [channel_count_inv] using hinv
  · intro hinv
    simpa [channel_count_inv, update_thread_function, update_channels_length] using hinv
  · simp only [set_number_of_can_channels, hvmod]
  · simp only [assign_can_channel_frame_handler, himod]
  · simp only [unassign_can_channel_frame_handler, himod]

/-! ## Concrete witnesses for the claim theorems -/

/-- Witness for C1: on a one-frame queue behind a transient failure the
frame is transmitted exactly once, and the enqueue/drain facts hold on
concrete data. -/
theorem claim_C1_transmit_fifo_backpressure_witness :
    (transmit_can_message frameA sampleState).2.hardwareChannels[0]? =
      some ⟨some (some 0), [frameA], [], false⟩ ∧
    transmit_drain writeOnlyA [frameA] = ([frameA], []) ∧
    transmit_drain writeOnlyA [frameB] = ([], [frameB]) ∧
    transmittedFrames
      ((process_channel writeOnlyA ⟨some (some 0), [frameB], [], true⟩).2 ++
        (process_channel (fun _ => true)
          (process_channel writeOnlyA ⟨some (some 0), [frameB], [], true⟩).1).2) =
      [frameB] := by
  have h := claim_C1_transmit_fifo_backpressure writeOnlyA writeOnlyA (fun _ => true)
    [frameA] [] [] frameB (⟨some (some 0), [frameB], [], true⟩ : CANHardware) 0
    sampleState frameA sampleChannel (some 0)
  refine ⟨h.1 rfl rfl, h.2.1 (by decide), ?_, (h.2.2.2 rfl rfl (by decide) (by decide)).2.2.1⟩
  exact h.2.2.1 (by decide) (by decide)

/-- Witness for C2: two frames read on channel 0 are deposited in order and
published in order by the next cycle. -/
theorem claim_C2_receive_publish_witness :
    (receive_message_thread_function 0 [frameA, frameB] sampleState).hardwareChannels[0]? =
      some ⟨some (some 0), [], [frameA, frameB], false⟩ ∧
    receivedFrames
      (process_channel (fun _ => true)
        (⟨some (some 0), [], [frameA, frameB], false⟩ : CANHardware)).2 =
      [frameA, frameB] := by
  have h := claim_C2_receive_publish (fun _ => true)
    (⟨some (some 0), [], [frameA, frameB], false⟩ : CANHardware)
    0 [frameA, frameB] sampleState sampleChannel
  exact ⟨h.1 rfl, h.2.1⟩

/-- Witness for C3: stopping a stopped registry fails without effect, and
stopping a running registry clears the flag and silences the next cycle. -/
theorem claim_C3_stop_witness :
    stop sampleState = (false, sampleState) ∧
    (stop sampleRunning).1 = true ∧
    (stop sampleRunning).2.threadsStarted = false ∧
    receivedFrames (update_thread_function (fun _ _ => true) (stop sampleRunning).2).2 = [] ∧
    transmittedFrames (update_thread_function (fun _ _ => true) (stop sampleRunning).2).2 = [] := by
  have h1 := (claim_C3_stop (fun _ _ => true) sampleState).1 rfl
  have h2 := (claim_C3_stop (fun _ _ => true) sampleRunning).2 rfl
  exact ⟨h1, h2.1, h2.2.1, h2.2.2.2.2.2.1, h2.2.2.2.2.2.2⟩

/-- Witness for C4: the spec's scenario — one channel without a driver
rejects the enqueue and stays unchanged, while an assigned channel accepts. -/
theorem claim_C4_transmit_enqueue_witness :
    (transmit_can_message frameA sampleNoDriver).1 = false ∧
    (transmit_can_message frameA sampleNoDriver).2 = sampleNoDriver ∧
    (transmit_can_message frameA sampleState).1 = true := by
  have h := claim_C4_transmit_enqueue frameA sampleNoDriver
  have h2 := claim_C4_transmit_enqueue frameA sampleState
  have hfail : (transmit_can_message frameA sampleNoDriver).1 = false :=
    h.1.mpr (Or.inr ⟨emptyChannel, rfl, rfl⟩)
  exact ⟨hfail, h.2.1 hfail, (h2.2.2 sampleChannel (some 0) rfl rfl).1⟩

/-- Witness for C5: the resize fails on a running registry and resizes a
stopped one to the requested count. -/
theorem claim_C5_set_number_of_channels_witness :
    set_number_of_can_channels 2 sampleRunning = (false, sampleRunning) ∧
    (set_number_of_can_channels 2 sampleState).1 = true ∧
    get_number_of_can_channels (set_number_of_can_channels 2 sampleState).2 = 2 := by
  have h1 := (claim_C5_set_number_of_channels 2 sampleRunning).1 rfl
  have h2 := (claim_C5_set_number_of_channels 2 sampleState).2 rfl
  exact ⟨h1, h2.1, h2.2.2.1⟩

/-- Witness for C6: assigning over an existing driver fails with no
mutation; unassigning an unassigned channel fails. -/
theorem claim_C6_assign_unassign_failures_witness :
    (assign_can_channel_frame_handler 0 (some 1) sampleState).1 = false ∧
    (assign_can_channel_frame_handler 0 (some 1) sampleState).2 = sampleState ∧
    (unassign_can_channel_frame_handler 0 sampleNoDriver).1 = false := by
  have h := claim_C6_assign_unassign_failures 0 (some 1) sampleState
  have h2 := claim_C6_assign_unassign_failures 0 none sampleNoDriver
  have hfail : (assign_can_channel_frame_handler 0 (some 1) sampleState).1 = false :=
    h.1.mpr (Or.inr (Or.inr ⟨sampleChannel, rfl, by decide⟩))
  exact ⟨hfail, h.2.1 hfail, h2.2.2.1.mpr (Or.inr (Or.inr ⟨emptyChannel, rfl, rfl⟩))⟩

/-- Witness for C7: starting a stopped well-configured registry succeeds
and flips the flag; starting a running one fails with no side effect. -/
theorem claim_C7_start_witness :
    (start sampleState).1 = true ∧
    (start sampleState).2.threadsStarted = true ∧
    (start sampleRunning).1 = false ∧
    (start sampleRunning).2 = sampleRunning := by
  have h := claim_C7_start sampleState
  have h2 := claim_C7_start sampleRunning
  have hrun : (start sampleRunning).1 = false := h2.1.mpr (Or.inl rfl)
  have hok : (start sampleState).1 = true := by decide
  exact ⟨hok, (h.2.2 hok).1, hrun, h2.2.1 hrun⟩

/-- Witness for C8: on a concrete running registry the cycle publishes
exactly one tick. -/
theorem claim_C8_update_cycle_order_witness :
    tickCount (update_thread_function (fun _ _ => true) sampleRunning).2 = 1 := by
  obtain ⟨blocks, -, -, -, -, -, htick⟩ :=
    claim_C8_update_cycle_order (fun _ _ => true) sampleRunning
  exact htick

/-- Witness for C10: resizing to 300 leaves at most 255 channels, and the
count getter respects the bound on the initial state. -/
theorem claim_C10_channel_table_8bit_witness :
    channel_count_inv (set_number_of_can_channels 300 initialState).2 ∧
    get_number_of_can_channels initialState ≤ 255 := by
  obtain ⟨h1, h2, h3, h4, h5, h6, h7, h8, h9, h10, h11, h12, h13, h14⟩ :=
    claim_C10_channel_table_8bit 300 0 none frameA [] (fun _ _ => true) initialState
  exact ⟨h2 (by decide), h11 (by decide)⟩

end Isobus
